import Mathlib

/-!
Verification of the Argos tracker event pipeline (a client-side telemetry
SDK).  The definitions below are a shallow embedding of the TypeScript
sources: `Reporter.formatPayload` / `Reporter.report` (reporter), the
`ArgosTracker` queue/scheduler (`addToQueue`, `scheduleBatchSend`,
`sendEvents`, `restorePendingEvents`, `setupBeforeUnload`), the
`StorageManager` pending-event overflow, and the `AutoCollector`
page-view dedup logic.
-/

namespace Argos

/-- JSON-ish values occurring in event records. `undef` models a JS
`undefined` field value. -/
inductive JVal where
  | str (s : String)
  | num (n : Int)
  | boolean (b : Bool)
  | undef
  deriving DecidableEq, Repr

/-- Embedding of the `TrackEvent` interface from `types.ts`.  The
`properties` map is an insertion-ordered association list, matching a JS
object's own enumerable keys. -/
structure TrackEvent where
  eventType : String
  eventName : String
  properties : List (String × JVal)
  timestamp : Int
  userId : Option String
  sessionId : String
  pageUrl : String
  pageTitle : String
  userAgent : String
  screenResolution : String
  deviceType : Option String
  deriving DecidableEq, Repr

/-- JS `a || b` for string-valued expressions: the empty string is falsy,
as is `undefined` (modelled by `none`). -/
def jsOrStr (o : Option String) (d : String) : String :=
  match o with
  | some s => if s = "" then d else s
  | none => d

/-- JS `a || b` for number-valued config entries: `0` and `undefined` are
falsy. Used for `this.config.batchSize || 10` and
`this.config.batchInterval || 5000`. -/
def jsOrNat (o : Option Nat) (d : Nat) : Nat :=
  match o with
  | some n => if n = 0 then d else n
  | none => d

/-- `target[k] = v` on a JS object modelled as an insertion-ordered
association list: overwrites the value in place if the key is present,
otherwise appends the new key at the end. -/
def setKey (l : List (String × JVal)) (k : String) (v : JVal) :
    List (String × JVal) :=
  match l with
  | [] => [(k, v)]
  | (k', v') :: t => if k' = k then (k, v) :: t else (k', v') :: setKey t k v

/-- `Object.assign(target, src)`: assigns every own key of `src` onto
`target` in order, later assignments overwriting earlier ones. -/
def objAssign (target src : List (String × JVal)) : List (String × JVal) :=
  src.foldl (fun acc p => setKey acc p.1 p.2) target

/-- JS property read on the modelled object (first binding wins; `setKey`
keeps keys unique if they started unique). -/
def getField (l : List (String × JVal)) (k : String) : Option JVal :=
  match l with
  | [] => none
  | (k', v) :: t => if k' = k then some v else getField t k

/-- The value a key ends up with after all assignments of an assoc list
are replayed in order: the *last* binding of the key, if any. -/
def lookupLast (l : List (String × JVal)) (k : String) : Option JVal :=
  match l with
  | [] => none
  | (k', v) :: t =>
    match lookupLast t k with
    | some w => some w
    | none => if k' = k then some v else none

/-- The eight canonical fields `Reporter.formatPayload` writes into the
per-event record before merging custom properties
(`collector.ts`, `formatPayload`). -/
def baseRecord (appId : String) (e : TrackEvent) : List (String × JVal) :=
  [("event_name", JVal.str e.eventName),
   ("user_id", match e.userId with | some u => JVal.str u | none => JVal.undef),
   ("session_id", JVal.str e.sessionId),
   ("timestamp", JVal.num e.timestamp),
   ("app_id", JVal.str appId),
   ("platform", JVal.str (jsOrStr e.deviceType "desktop")),
   ("user_agent", JVal.str e.userAgent),
   ("page_url", JVal.str e.pageUrl)]

/-- One per-event record of the wire payload, as built by
`Reporter.formatPayload`: the canonical fields, then
`Object.assign(formattedEvent, event.properties)` flattening the custom
properties onto the top level.  (The `Object.keys(...).length > 0` guard
in the source is behaviourally the identity fold on an empty list.) -/
def formatEvent (appId : String) (e : TrackEvent) : List (String × JVal) :=
  objAssign (baseRecord appId e) e.properties

/-- The wire payload for a batch: `{ events: [...] }`. -/
def formatPayload (appId : String) (events : List TrackEvent) :
    List (List (String × JVal)) :=
  events.map (formatEvent appId)

/-! ## Delivery strategy (`reporter.ts`) -/

/-- Report method enum from `constants.ts`. -/
inductive ReportMethod where
  | immediate
  | batch
  | beacon
  deriving DecidableEq, Repr

/-- JS exceptions that the transport primitives can raise. -/
inductive JsErr where
  | abortError
  | netError (msg : String)
  | beaconThrow (msg : String)
  deriving DecidableEq, Repr

/-- Outcome of one raw `fetch` attempt: an HTTP response with a status
code, a thrown network error, or the timeout-driven `AbortError`. -/
inductive FetchOutcome where
  | resp (status : Nat)
  | netError (msg : String)
  | timeoutAbort
  deriving DecidableEq, Repr

/-- Behaviour of the `navigator.sendBeacon` primitive at the call site:
it queued the payload (`true`) or rejected it (`false`), it threw, or the
primitive is unavailable and the code falls back to `fetch` whose own
outcome is `f`. -/
inductive BeaconBehavior where
  | available (accepted : Bool)
  | throwing (msg : String)
  | unavailable (f : FetchOutcome)
  deriving DecidableEq, Repr

/-- The raw `fetch` call: either resolves to a response or throws. -/
def fetchRaw (o : FetchOutcome) : Except JsErr Nat :=
  match o with
  | FetchOutcome.resp s => Except.ok s
  | FetchOutcome.netError m => Except.error (JsErr.netError m)
  | FetchOutcome.timeoutAbort => Except.error JsErr.abortError

/-- `response.ok`: status in the 2xx range. -/
def respOk (status : Nat) : Bool := 200 ≤ status && status < 300

/-- `Reporter.sendFetch`: awaits the fetch inside a try/catch; `true` on
`response.ok`, `false` on a non-2xx status, and the catch block turns any
thrown error (network failure or timeout abort) into `false`. -/
def sendFetchE (o : FetchOutcome) : Except JsErr Bool :=
  match fetchRaw o with
  | Except.ok status => if respOk status then Except.ok true else Except.ok false
  | Except.error _ => Except.ok false

/-- `Reporter.sendBeacon`: falls back to `sendFetch` (with `.catch (fun _ => false)`)
when the primitive is unavailable; otherwise returns the primitive's
boolean, with its own try/catch turning a throw into `false`. -/
def sendBeaconE (b : BeaconBehavior) : Except JsErr Bool :=
  match b with
  | BeaconBehavior.unavailable f =>
    match sendFetchE f with
    | Except.ok t => Except.ok t
    | Except.error _ => Except.ok false
  | BeaconBehavior.available accepted => Except.ok accepted
  | BeaconBehavior.throwing _ => Except.ok false

/-- `Reporter.report`: returns `true` immediately on an empty batch,
dispatches on the report method (beacon vs fetch), and wraps the dispatch
in a try/catch whose handler returns `false`. -/
def reportE (events : List TrackEvent) (method : ReportMethod)
    (f : FetchOutcome) (b : BeaconBehavior) : Except JsErr Bool :=
  if events.isEmpty then Except.ok true
  else
    match (match method with
           | ReportMethod.beacon => sendBeaconE b
           | _ => sendFetchE f) with
    | Except.ok t => Except.ok t
    | Except.error _ => Except.ok false

/-- Whether a fetch outcome counts as a delivery success (2xx response). -/
def fetchSuccess (f : FetchOutcome) : Bool :=
  match f with
  | FetchOutcome.resp s => respOk s
  | _ => false

/-- Whether a beacon-mode send counts as success. -/
def beaconSuccess (b : BeaconBehavior) : Bool :=
  match b with
  | BeaconBehavior.available accepted => accepted
  | BeaconBehavior.throwing _ => false
  | BeaconBehavior.unavailable f => fetchSuccess f

/-! ## Event pipeline (`tracker.ts`, `storage.ts`) -/

/-- The configuration slice the scheduler reads (`TrackerConfig`):
`reportMethod`, `batchSize`, `batchInterval`. `none` models an absent
(undefined) optional entry. -/
structure Config where
  reportMethod : ReportMethod
  batchSize : Option Nat
  batchInterval : Option Nat
  deriving DecidableEq, Repr

/-- `StorageManager.savePendingEvents`: reads the persisted overflow,
appends the new events after the existing ones, and writes it back. -/
def savePendingEvents {E : Type} (overflow events : List E) : List E :=
  overflow ++ events

/-- Pipeline state of one `ArgosTracker` instance, instrumented with
observation logs.  `eventQueue` and `batchTimer` are the fields of the
class; `overflow` is the durable `argos_pending_events` store;
`inFlight` holds batches swapped out by `sendEvents` whose network
attempt has not resolved yet; `deliveryCalls` logs every batch handed to
`reporter.report` by `sendEvents`; `deliveredBatches` logs batches whose
attempt succeeded; `beaconCalls` logs teardown sends with their outcome;
`armCount` counts `setTimeout` arms of the batch timer; `restoreTimer`
records the delay of a pending restore flush. -/
structure TState (E : Type) where
  eventQueue : List E
  batchTimer : Option Nat
  armCount : Nat
  inFlight : List (List E)
  deliveryCalls : List (List E)
  deliveredBatches : List (List E)
  overflow : List E
  beaconCalls : List (List E × Bool)
  restoreTimer : Option Nat
  deriving DecidableEq, Repr

/-- A freshly constructed tracker with an empty durable store. -/
def initState (E : Type) : TState E :=
  { eventQueue := [], batchTimer := none, armCount := 0, inFlight := [],
    deliveryCalls := [], deliveredBatches := [], overflow := [],
    beaconCalls := [], restoreTimer := none }

/-- The synchronous prefix of `ArgosTracker.sendEvents`: return if the
queue is empty; otherwise copy the queue, swap in an empty queue, and
hand the copy to `reporter.report` (resolution arrives later as a
`complete` step). -/
def sendEventsBegin {E : Type} (s : TState E) : TState E :=
  if s.eventQueue.isEmpty then s
  else
    { s with eventQueue := [],
             inFlight := s.inFlight ++ [s.eventQueue],
             deliveryCalls := s.deliveryCalls ++ [s.eventQueue] }

/-- `ArgosTracker.scheduleBatchSend`: returns if a timer is already
armed, otherwise arms one with delay `batchInterval || 5000`. -/
def scheduleBatchSend {E : Type} (cfg : Config) (s : TState E) : TState E :=
  if s.batchTimer.isSome then s
  else
    { s with batchTimer := some (jsOrNat cfg.batchInterval 5000),
             armCount := s.armCount + 1 }

/-- `ArgosTracker.addToQueue`: push the event, then apply the queueing
policy — immediate mode flushes at once; batch mode flushes when
`queue.length ≥ (batchSize || 10)` and otherwise arms the deferred timer;
beacon mode never auto-flushes. -/
def addToQueue {E : Type} (cfg : Config) (e : E) (s : TState E) : TState E :=
  let s1 := { s with eventQueue := s.eventQueue ++ [e] }
  match cfg.reportMethod with
  | ReportMethod.immediate => sendEventsBegin s1
  | ReportMethod.batch =>
    if jsOrNat cfg.batchSize 10 ≤ s1.eventQueue.length then sendEventsBegin s1
    else scheduleBatchSend cfg s1
  | ReportMethod.beacon => s1

/-- Pipeline steps: enqueue; batch timer firing; restore timer firing;
resolution of the `i`-th in-flight send with outcome `ok`; explicit
`flush()`; the page-teardown signal whose beacon attempt has outcome
`ok`; and `restorePendingEvents`. -/
inductive Op (E : Type) where
  | enq (e : E)
  | timerFire
  | restoreFire
  | complete (i : Nat) (ok : Bool)
  | flushNow
  | teardown (ok : Bool)
  | restore
  deriving DecidableEq, Repr

/-- One pipeline step.  `timerFire` runs the batch-timer callback
(`sendEvents(); batchTimer = null`); `restoreFire` runs the restore
callback (`sendEvents()`); `complete` resolves an in-flight report —
on failure `sendEvents` saves the whole swapped-out batch through
`storage.savePendingEvents`; `flushNow` is `flush()` (cancel timer, send);
`teardown` is `setupBeforeUnload`'s handler — with a non-empty queue it
reports a copy of the queue through a beacon reporter and saves the same
events to storage, leaving the queue untouched; `restore` is
`restorePendingEvents` — with a non-empty store it appends the stored
events to the queue, clears the store, and schedules a flush with a
fixed 1000 ms delay. -/
def step {E : Type} (cfg : Config) (s : TState E) : Op E → TState E
  | Op.enq e => addToQueue cfg e s
  | Op.timerFire => { sendEventsBegin s with batchTimer := none }
  | Op.restoreFire => { sendEventsBegin s with restoreTimer := none }
  | Op.complete i ok =>
    match s.inFlight[i]? with
    | none => s
    | some b =>
      let s1 := { s with inFlight := s.inFlight.eraseIdx i }
      if ok then { s1 with deliveredBatches := s1.deliveredBatches ++ [b] }
      else { s1 with overflow := savePendingEvents s1.overflow b }
  | Op.flushNow => sendEventsBegin { s with batchTimer := none }
  | Op.teardown ok =>
    if s.eventQueue.isEmpty then s
    else
      { s with beaconCalls := s.beaconCalls ++ [(s.eventQueue, ok)],
               overflow := savePendingEvents s.overflow s.eventQueue }
  | Op.restore =>
    if s.overflow.isEmpty then s
    else
      { s with eventQueue := s.eventQueue ++ s.overflow,
               overflow := [],
               restoreTimer := some 1000 }

/-- Run a sequence of pipeline steps. -/
def run {E : Type} (cfg : Config) (s : TState E) (ops : List (Op E)) : TState E :=
  ops.foldl (step cfg) s

/-- Number of `enq e` operations in a trace. -/
def countEnq {E : Type} [DecidableEq E] (e : E) : List (Op E) → Nat
  | [] => 0
  | Op.enq e' :: t => (if e' = e then 1 else 0) + countEnq e t
  | _ :: t => countEnq e t

/-- Occurrences of `e` across all batches ever handed to
`reporter.report` by `sendEvents`. -/
def countCalls {E : Type} [DecidableEq E] (e : E) (s : TState E) : Nat :=
  (s.deliveryCalls.map (fun b => b.count e)).sum

/-- Occurrences of `e` still owned by the pending queue plus those
already handed to delivery: the conserved weight of the swap argument. -/
def weight {E : Type} [DecidableEq E] (e : E) (s : TState E) : Nat :=
  s.eventQueue.count e + countCalls e s

/-! ## Event creation (`tracker.ts` `trackEvent`/`trackPageView`,
`collector.ts` `AutoCollector`) -/

/-- The ambient browser values `trackEvent` reads when filling in the
fields of a full event: `Date.now()`, `window.location.href`,
`document.title`, `document.referrer`, user agent, screen resolution,
device type, and the storage-held user/session identifiers. -/
structure Env where
  now : Int
  href : String
  title : String
  referrer : String
  userAgent : String
  screenResolution : String
  deviceType : Option String
  userId : Option String
  sessionId : String
  deriving DecidableEq, Repr

/-- `ArgosTracker.trackEvent` for a partial event carrying only a type,
a name, a properties map and (optionally, via the collector) a
timestamp: every other field is filled from the environment.  Callers on
the manual paths pass no timestamp, so `timestamp || getCurrentTimestamp()`
reads `env.now`; the collector passes its own creation time. -/
def trackEventFull (env : Env) (eventType eventName : String)
    (props : List (String × JVal)) (ts : Option Int) : TrackEvent :=
  { eventType := eventType, eventName := eventName, properties := props,
    timestamp := match ts with | some t => t | none => env.now,
    userId := env.userId, sessionId := env.sessionId,
    pageUrl := env.href, pageTitle := env.title,
    userAgent := env.userAgent, screenResolution := env.screenResolution,
    deviceType := env.deviceType }

/-- `getPageInfo()` from `utils.ts`, as a properties map. -/
def pageInfoProps (env : Env) : List (String × JVal) :=
  [("url", JVal.str env.href), ("title", JVal.str env.title),
   ("referrer", JVal.str env.referrer)]

/-- The public `ArgosTracker.trackPageView`: unconditionally builds a
`page_view` event from `getPageInfo()` spread with the caller's
properties and enqueues it — there is no dedup check on this path. -/
def argosTrackPageView (cfg : Config) (env : Env)
    (props : List (String × JVal)) (s : TState TrackEvent) :
    TState TrackEvent :=
  addToQueue cfg
    (trackEventFull env "page_view" "page_view"
      (objAssign (pageInfoProps env) props) none) s

/-- The `AutoCollector`'s single most-recent page-view pointer
(`lastPageViewUrl`, `lastPageViewTime`); a fresh collector holds
`''` and `0`. -/
structure CollectorState where
  lastPageViewUrl : String
  lastPageViewTime : Int
  deriving DecidableEq, Repr

/-- A freshly constructed `AutoCollector`. -/
def collectorInit : CollectorState :=
  { lastPageViewUrl := "", lastPageViewTime := 0 }

/-- `AutoCollector.trackPageView`: if the most recent page-view had the
same URL and was created less than 100 ms ago, return without creating
an event; otherwise update the pointer and emit a `page_view` event
carrying the current URL, title and referrer with the current time as
its timestamp. -/
def collectorTrackPageView (c : CollectorState) (env : Env) :
    CollectorState × Option TrackEvent :=
  if c.lastPageViewUrl = env.href ∧ env.now - c.lastPageViewTime < 100 then
    (c, none)
  else
    ({ lastPageViewUrl := env.href, lastPageViewTime := env.now },
     some (trackEventFull env "page_view" "page_view" (pageInfoProps env)
       (some env.now)))

/-- `e` occurs nowhere in the pipeline: not in the pending queue, not in
any in-flight or logged delivery batch, and not in the durable overflow. -/
def absent {E : Type} (e : E) (s : TState E) : Prop :=
  e ∉ s.eventQueue ∧ (∀ b ∈ s.inFlight, e ∉ b) ∧
    (∀ b ∈ s.deliveryCalls, e ∉ b) ∧ e ∉ s.overflow

/-- The state right after `restorePendingEvents` runs on a fresh tracker
whose durable store holds `P`. -/
def afterRestore {E : Type} (cfg : Config) (P : List E) : TState E :=
  step cfg { initState E with overflow := P } Op.restore

/-- ... and after the 1-second restore timer fires and its send resolves
with outcome `ok`. -/
def afterRestoreFlush {E : Type} (cfg : Config) (P : List E) (ok : Bool) : TState E :=
  run cfg (afterRestore cfg P) [Op.restoreFire, Op.complete 0 ok]

/-! ## Concrete sample data used by witnesses and counterexamples -/

/-- An event whose custom-property map re-uses the reserved key
`event_name`. -/
def evilEvent : TrackEvent :=
  { eventType := "custom", eventName := "real_name",
    properties := [("event_name", JVal.str "forged")],
    timestamp := 111, userId := some "u1", sessionId := "s1",
    pageUrl := "https://app.example/home", pageTitle := "Home",
    userAgent := "UA", screenResolution := "1920x1080",
    deviceType := some "desktop" }

/-- Immediate-mode configuration. -/
def cfgImm : Config := { reportMethod := ReportMethod.immediate, batchSize := none, batchInterval := none }

/-- Beacon-mode (teardown-only) configuration: no auto flush. -/
def cfgBeaconOnly : Config := { reportMethod := ReportMethod.beacon, batchSize := none, batchInterval := none }

/-- Batch-mode configuration with `batchSize = 10`. -/
def cfgBatch10 : Config := { reportMethod := ReportMethod.batch, batchSize := some 10, batchInterval := none }

/-- A browser environment at t = 1000 ms on one page. -/
def envA : Env :=
  { now := 1000, href := "https://app.example/home", title := "Home",
    referrer := "", userAgent := "UA", screenResolution := "1920x1080",
    deviceType := some "desktop", userId := some "u", sessionId := "s" }

/-- The same page 50 ms later. -/
def envB : Env := { envA with now := 1050 }

/-- The same page 150 ms later. -/
def envC : Env := { envA with now := 1150 }

/-! ## Lemmas: the assign/lookup algebra of `formatPayload` -/

theorem getField_setKey_self (l : List (String × JVal)) (k : String) (v : JVal) :
    getField (setKey l k v) k = some v := by
  induction l with
  | nil => simp [setKey, getField]
  | cons p t ih =>
    by_cases h : p.1 = k
    · simp [setKey, getField, h]
    · simp [setKey, getField, h, ih]

theorem getField_setKey_other (l : List (String × JVal)) (k k' : String)
    (v : JVal) (h : k' ≠ k) :
    getField (setKey l k' v) k = getField l k := by
  induction l with
  | nil => simp [setKey, getField, h]
  | cons p t ih =>
    by_cases hp : p.1 = k'
    · simp [setKey, getField, hp, h]
    · simp [setKey, hp, getField, ih]

theorem getField_objAssign_absent (src : List (String × JVal)) (k : String)
    (h : lookupLast src k = none) (target : List (String × JVal)) :
    getField (objAssign target src) k = getField target k := by
  induction src generalizing target with
  | nil => simp [objAssign]
  | cons p t ih =>
    have hsplit : lookupLast t k = none ∧ ¬ p.1 = k := by
      by_cases h1 : lookupLast t k = none
      · refine ⟨h1, ?_⟩
        intro hk
        simp [lookupLast, h1, hk] at h
      · obtain ⟨w, hw⟩ := Option.ne_none_iff_exists'.mp h1
        simp [lookupLast, hw] at h
    have hstep : objAssign target (p :: t) = objAssign (setKey target p.1 p.2) t := by
      simp [objAssign]
    rw [hstep, ih hsplit.1, getField_setKey_other _ _ _ _ hsplit.2]

theorem getField_objAssign_last (src : List (String × JVal)) (k : String)
    (v : JVal) (h : lookupLast src k = some v) (target : List (String × JVal)) :
    getField (objAssign target src) k = some v := by
  induction src generalizing target with
  | nil => simp [lookupLast] at h
  | cons p t ih =>
    have hstep : objAssign target (p :: t) = objAssign (setKey target p.1 p.2) t := by
      simp [objAssign]
    by_cases h1 : lookupLast t k = none
    · have hpk : p.1 = k ∧ p.2 = v := by
        by_cases hk : p.1 = k
        · simp [lookupLast, h1, hk] at h
          exact ⟨hk, h⟩
        · simp [lookupLast, h1, hk] at h
      rw [hstep, getField_objAssign_absent t k h1, hpk.1,
        getField_setKey_self, hpk.2]
    · obtain ⟨w, hw⟩ := Option.ne_none_iff_exists'.mp h1
      have : w = v := by simp [lookupLast, hw] at h; exact h
      rw [hstep, ih (this ▸ hw)]

/-! ## Lemmas: pipeline traces -/

theorem run_nil {E : Type} (cfg : Config) (s : TState E) : run cfg s [] = s := rfl

theorem run_cons {E : Type} (cfg : Config) (s : TState E) (op : Op E)
    (ops : List (Op E)) : run cfg s (op :: ops) = run cfg (step cfg s op) ops := rfl

theorem countEnq_cons {E : Type} [DecidableEq E] (e : E) (op : Op E)
    (t : List (Op E)) : countEnq e (op :: t) = countEnq e [op] + countEnq e t := by
  cases op <;> simp [countEnq]

theorem countEnq_append {E : Type} [DecidableEq E] (e : E) (l1 l2 : List (Op E)) :
    countEnq e (l1 ++ l2) = countEnq e l1 + countEnq e l2 := by
  induction l1 with
  | nil => simp [countEnq]
  | cons op t ih =>
    rw [List.cons_append, countEnq_cons, ih, countEnq_cons e op t]
    omega

theorem weight_sendEventsBegin {E : Type} [DecidableEq E] (e : E) (s : TState E) :
    weight e (sendEventsBegin s) = weight e s := by
  by_cases h : s.eventQueue.isEmpty
  · simp [sendEventsBegin, h]
  · simp [sendEventsBegin, h, weight, countCalls, List.map_append, List.sum_append]
    omega

theorem weight_scheduleBatchSend {E : Type} [DecidableEq E] (cfg : Config) (e : E)
    (s : TState E) : weight e (scheduleBatchSend cfg s) = weight e s := by
  by_cases h : s.batchTimer.isSome <;> simp [scheduleBatchSend, h, weight, countCalls]

theorem weight_addToQueue {E : Type} [DecidableEq E] (cfg : Config) (e' e : E)
    (s : TState E) :
    weight e (addToQueue cfg e' s) = weight e s + (if e' = e then 1 else 0) := by
  have hbase : weight e { s with eventQueue := s.eventQueue ++ [e'] } =
      weight e s + (if e' = e then 1 else 0) := by
    simp [weight, countCalls, List.count_append, List.count_singleton]
    by_cases h : e' = e
    · simp [h]
      omega
    · simp [h]
  rw [addToQueue]
  cases cfg.reportMethod with
  | immediate => rw [weight_sendEventsBegin, hbase]
  | batch =>
    by_cases hth : jsOrNat cfg.batchSize 10 ≤ (s.eventQueue ++ [e']).length
    · simp only [hth, if_true, weight_sendEventsBegin, hbase]
    · simp only [hth, if_false, weight_scheduleBatchSend, hbase]
  | beacon => exact hbase

theorem weight_step {E : Type} [DecidableEq E] (cfg : Config) (e : E) (s : TState E)
    (op : Op E) (h : op ≠ Op.restore) :
    weight e (step cfg s op) = weight e s + countEnq e [op] := by
  cases op with
  | enq e' => simpa [step, countEnq] using weight_addToQueue cfg e' e s
  | timerFire => simpa [step, countEnq] using weight_sendEventsBegin e s
  | restoreFire => simpa [step, countEnq] using weight_sendEventsBegin e s
  | flushNow =>
    simpa [step, countEnq] using
      weight_sendEventsBegin e { s with batchTimer := (none : Option Nat) }
  | complete i ok =>
    cases hi : s.inFlight[i]? with
    | none => simp [step, hi, countEnq]
    | some b => cases ok <;> simp [step, hi, countEnq, weight, countCalls]
  | teardown ok =>
    by_cases hq : s.eventQueue.isEmpty <;>
      simp [step, hq, countEnq, weight, countCalls]
  | restore => exact absurd rfl h

theorem weight_run {E : Type} [DecidableEq E] (cfg : Config) (e : E) (s : TState E)
    (ops : List (Op E)) (h : Op.restore ∉ ops) :
    weight e (run cfg s ops) = weight e s + countEnq e ops := by
  induction ops generalizing s with
  | nil => simp [run, countEnq]
  | cons op t ih =>
    have hop : op ≠ Op.restore := by
      intro hc
      exact h (hc ▸ List.mem_cons_self op t)
    have ht : Op.restore ∉ t := fun hm => h (List.mem_cons_of_mem op hm)
    rw [run_cons, ih _ ht, weight_step cfg e s op hop, countEnq_cons e op t]
    omega

theorem absent_sendEventsBegin {E : Type} (e : E) (s : TState E)
    (h : absent e s) : absent e (sendEventsBegin s) := by
  by_cases hq : s.eventQueue.isEmpty
  · simpa [sendEventsBegin, hq] using h
  · obtain ⟨h1, h2, h3, h4⟩ := h
    refine ⟨by simp [sendEventsBegin, hq], ?_, ?_, by simp [sendEventsBegin, hq]; exact h4⟩
    · intro b hb
      simp only [sendEventsBegin, hq, if_false, Bool.false_eq_true,
        List.mem_append, List.mem_singleton] at hb
      rcases hb with hb | hb
      · exact h2 b hb
      · exact hb ▸ h1
    · intro b hb
      simp only [sendEventsBegin, hq, if_false, Bool.false_eq_true,
        List.mem_append, List.mem_singleton] at hb
      rcases hb with hb | hb
      · exact h3 b hb
      · exact hb ▸ h1

theorem absent_scheduleBatchSend {E : Type} (cfg : Config) (e : E) (s : TState E)
    (h : absent e s) : absent e (scheduleBatchSend cfg s) := by
  by_cases ht : s.batchTimer.isSome <;> simpa [scheduleBatchSend, ht] using h

theorem absent_step {E : Type} [DecidableEq E] (cfg : Config) (e : E) (s : TState E)
    (op : Op E) (hop : countEnq e [op] = 0) (h : absent e s) :
    absent e (step cfg s op) := by
  cases op with
  | enq e' =>
    have hne : e' ≠ e := by
      intro hc
      simp [countEnq, hc] at hop
    have h1 : absent e { s with eventQueue := s.eventQueue ++ [e'] } := by
      obtain ⟨ha, hb, hc, hd⟩ := h
      refine ⟨?_, hb, hc, hd⟩
      simp only [List.mem_append, List.mem_singleton]
      rintro (hm | hm)
      · exact ha hm
      · exact hne hm.symm
    rw [step, addToQueue]
    cases cfg.reportMethod with
    | immediate => exact absent_sendEventsBegin e _ h1
    | batch =>
      by_cases hth : jsOrNat cfg.batchSize 10 ≤ (s.eventQueue ++ [e']).length
      · simp only [hth, if_true]
        exact absent_sendEventsBegin e _ h1
      · simp only [hth, if_false]
        exact absent_scheduleBatchSend cfg e _ h1
    | beacon => exact h1
  | timerFire =>
    have := absent_sendEventsBegin e s h
    exact ⟨this.1, this.2.1, this.2.2.1, this.2.2.2⟩
  | restoreFire =>
    have := absent_sendEventsBegin e s h
    exact ⟨this.1, this.2.1, this.2.2.1, this.2.2.2⟩
  | flushNow =>
    have h0 : absent e { s with batchTimer := (none : Option Nat) } := h
    exact absent_sendEventsBegin e _ h0
  | complete i ok =>
    obtain ⟨h1, h2, h3, h4⟩ := h
    cases hi : s.inFlight[i]? with
    | none =>
      simp only [step, hi]
      exact ⟨h1, h2, h3, h4⟩
    | some b =>
      have hbm : e ∉ b := h2 b (List.getElem?_mem hi)
      have h2e : ∀ b2 ∈ s.inFlight.eraseIdx i, e ∉ b2 :=
        fun b2 hb2 => h2 b2 (List.mem_of_mem_eraseIdx hb2)
      cases ok with
      | true =>
        simp only [step, hi, if_true]
        exact ⟨h1, h2e, h3, h4⟩
      | false =>
        simp only [step, hi, Bool.false_eq_true, if_false]
        refine ⟨h1, h2e, h3, ?_⟩
        simp only [savePendingEvents, List.append_eq, List.mem_append]
        rintro (hm | hm)
        · exact h4 hm
        · exact hbm hm
  | teardown ok =>
    obtain ⟨h1, h2, h3, h4⟩ := h
    by_cases hq : s.eventQueue.isEmpty
    · simpa [step, hq] using ⟨h1, h2, h3, h4⟩
    · simp only [step, hq, Bool.false_eq_true, if_false]
      refine ⟨h1, h2, h3, ?_⟩
      simp only [savePendingEvents, List.append_eq, List.mem_append]
      rintro (hm | hm)
      · exact h4 hm
      · exact h1 hm
  | restore =>
    obtain ⟨h1, h2, h3, h4⟩ := h
    by_cases hq : s.overflow.isEmpty
    · simpa [step, hq] using ⟨h1, h2, h3, h4⟩
    · simp only [step, hq, Bool.false_eq_true, if_false]
      refine ⟨?_, h2, h3, by simp⟩
      simp only [List.append_eq, List.mem_append]
      rintro (hm | hm)
      · exact h1 hm
      · exact h4 hm

theorem absent_run {E : Type} [DecidableEq E] (cfg : Config) (e : E) (s : TState E)
    (ops : List (Op E)) (h0 : countEnq e ops = 0) (h : absent e s) :
    absent e (run cfg s ops) := by
  induction ops generalizing s with
  | nil => simpa [run] using h
  | cons op t ih =>
    rw [countEnq_cons e op t] at h0
    rw [run_cons]
    exact ih (step cfg s op) (by omega) (absent_step cfg e s op (by omega) h)

theorem sendFetchE_eq (f : FetchOutcome) :
    sendFetchE f = Except.ok (fetchSuccess f) := by
  cases f with
  | resp s =>
    by_cases h : respOk s = true
    · simp [sendFetchE, fetchRaw, fetchSuccess, h]
    · simp [sendFetchE, fetchRaw, fetchSuccess, h]
  | netError m => rfl
  | timeoutAbort => rfl

theorem sendBeaconE_eq (b : BeaconBehavior) :
    sendBeaconE b = Except.ok (beaconSuccess b) := by
  cases b with
  | available acc => rfl
  | throwing m => rfl
  | unavailable f => simp [sendBeaconE, beaconSuccess, sendFetchE_eq]

theorem addToQueue_below_threshold {E : Type} (cfg : Config)
    (hm : cfg.reportMethod = ReportMethod.batch) (e : E) (s : TState E)
    (hlen : s.eventQueue.length + 1 < jsOrNat cfg.batchSize 10)
    (ht : s.batchTimer.isSome) :
    addToQueue cfg e s = { s with eventQueue := s.eventQueue ++ [e] } := by
  have hth : ¬ (jsOrNat cfg.batchSize 10 ≤ s.eventQueue.length + 1) := by omega
  simp [addToQueue, hm, hth, scheduleBatchSend, ht]

theorem run_enqs_below_threshold {E : Type} (cfg : Config)
    (hm : cfg.reportMethod = ReportMethod.batch) (es : List E) :
    ∀ s : TState E, s.batchTimer.isSome →
      s.eventQueue.length + es.length < jsOrNat cfg.batchSize 10 →
      run cfg s (es.map Op.enq) = { s with eventQueue := s.eventQueue ++ es } := by
  induction es with
  | nil =>
    intro s _ _
    simp [run]
  | cons e t ih =>
    intro s ht hlen
    have h1 : step cfg s (Op.enq e) = { s with eventQueue := s.eventQueue ++ [e] } := by
      have := addToQueue_below_threshold cfg hm e s (by simp at hlen; omega) ht
      simpa [step] using this
    rw [List.map_cons, run_cons, h1,
      ih { s with eventQueue := s.eventQueue ++ [e] } ht (by simp at hlen ⊢; omega)]
    simp

/-! ## Claim theorems -/

/-- Claim C1, counterexample: the claim says the canonical value wins the
merge for a reserved field name, but for `evilEvent` — whose custom
properties bind the reserved key `event_name` to `"forged"` while the
event's canonical name is `"real_name"` — the wire record produced by
`Reporter.formatPayload` carries the custom property's value, not the
canonical one. -/
theorem formatEvent_reserved_overridden_cx :
    getField (formatEvent "app1" evilEvent) "event_name" =
        some (JVal.str "forged") ∧
    getField (formatEvent "app1" evilEvent) "event_name" ≠
        some (JVal.str "real_name") := by
  constructor
  · rfl
  · intro h
    simp [formatEvent, evilEvent, baseRecord, objAssign, setKey, getField] at h

/-- Claim C1 (amended): in the wire payload produced for delivery, for
every event whose custom-property mapping binds a key — in particular a
reserved field name — the per-event record carries the custom property's
(last-bound) value for that key, not the canonical value: the custom
property wins the merge performed by `Reporter.formatPayload`, because
`Object.assign(formattedEvent, event.properties)` runs after the
canonical fields are written. -/
theorem formatEvent_custom_prop_wins (appId : String) (e : TrackEvent)
    (k : String) (v : JVal) (h : lookupLast e.properties k = some v) :
    getField (formatEvent appId e) k = some v :=
  getField_objAssign_last e.properties k v h (baseRecord appId e)

/-- Witness for the amended C1 theorem at the concrete event. -/
theorem formatEvent_custom_prop_wins_witness :
    getField (formatEvent "app1" evilEvent) "event_name" =
      some (JVal.str "forged") :=
  formatEvent_custom_prop_wins "app1" evilEvent "event_name"
    (JVal.str "forged") rfl

/-- Claim C2: swap safety.  If `e` is enqueued exactly once, and only
after the prefix `l1` of the trace (so every flush whose swap happened
during `l1` — in particular any flush still in flight when `e` arrives —
predates `e`'s enqueue), then no batch handed to delivery during `l1`
contains `e`; and over the whole trace (any interleaving of enqueues,
flushes, timer fires, completions and teardowns, with no durable
restore) `e` is never lost or duplicated: its occurrences in the final
pending queue plus all delivery batches total exactly one, so `e`
appears in exactly one flush's batch once it has left the queue. -/
theorem swap_safety {E : Type} [DecidableEq E] (cfg : Config) (e : E)
    (l1 l2 : List (Op E)) (h1 : countEnq e l1 = 0) (h2 : countEnq e l2 = 1)
    (hnr : Op.restore ∉ l1 ++ l2) :
    (∀ b ∈ (run cfg (initState E) l1).deliveryCalls, e ∉ b) ∧
    (run cfg (initState E) (l1 ++ l2)).eventQueue.count e
      + countCalls e (run cfg (initState E) (l1 ++ l2)) = 1 := by
  constructor
  · have ha : absent e (initState E) := by simp [absent, initState]
    exact (absent_run cfg e (initState E) l1 h1 ha).2.2.1
  · have hw := weight_run cfg e (initState E) (l1 ++ l2) hnr
    have hinit : weight e (initState E) = 0 := by
      simp [weight, countCalls, initState]
    rw [hinit, countEnq_append, h1, h2] at hw
    simpa [weight] using hw

/-- Witness for C2: `1` is enqueued after the flush triggered inside
`l1 = [enq 0]` (immediate mode flushes synchronously); the batch of that
flush does not contain `1`, and `1` ends up in exactly one batch. -/
theorem swap_safety_witness :
    (∀ b ∈ (run cfgImm (initState Nat) [Op.enq 0]).deliveryCalls, 1 ∉ b) ∧
    (run cfgImm (initState Nat) ([Op.enq 0] ++ [Op.enq 1])).eventQueue.count 1
      + countCalls 1 (run cfgImm (initState Nat) ([Op.enq 0] ++ [Op.enq 1])) = 1 :=
  swap_safety cfgImm 1 [Op.enq 0] [Op.enq 1] (by decide) (by decide) (by decide)

/-- Claim C3, counterexample: two page-view events created through the
public `ArgosTracker.trackPageView` for the same URL 50 ms apart are
*both* created and enqueued — the second is not discarded, because the
100 ms dedup check lives only in `AutoCollector.trackPageView` and the
manual path performs no dedup. -/
theorem manual_pageView_no_dedup_cx :
    (argosTrackPageView cfgBeaconOnly envB []
        (argosTrackPageView cfgBeaconOnly envA []
          (initState TrackEvent))).eventQueue.length = 2 ∧
    envB.href = envA.href ∧ envB.now - envA.now = 50 :=
  ⟨rfl, rfl, rfl⟩

/-- Claim C3 (amended): the 100 ms same-URL dedup holds on the
auto-collector path.  If a page-view was emitted by
`AutoCollector.trackPageView` (updating the most-recent pointer), then an
immediately following auto-collector page-view for the same URL is
discarded (no event created) exactly when it occurs less than 100 ms
later; at 100 ms or more, a second event is created.  The public
`ArgosTracker.trackPageView` path performs no such dedup (see the
counterexample). -/
theorem collector_pageView_dedup (c : CollectorState) (env1 env2 : Env)
    (e1 : TrackEvent) (h1 : (collectorTrackPageView c env1).2 = some e1)
    (hurl : env2.href = env1.href) :
    ((collectorTrackPageView (collectorTrackPageView c env1).1 env2).2 = none
      ↔ env2.now - env1.now < 100) := by
  by_cases hc : c.lastPageViewUrl = env1.href ∧ env1.now - c.lastPageViewTime < 100
  · rw [collectorTrackPageView, if_pos hc] at h1
    cases h1
  · have hfst : (collectorTrackPageView c env1).1 =
        { lastPageViewUrl := env1.href, lastPageViewTime := env1.now } := by
      rw [collectorTrackPageView, if_neg hc]
    rw [hfst]
    by_cases h2 : env2.now - env1.now < 100
    · simp [collectorTrackPageView, hurl, h2]
    · simp [collectorTrackPageView, hurl, h2]

/-- Witness for the amended C3 theorem: from a fresh collector, a
page-view at t = 1000 followed by one for the same URL at t = 1050 —
the second is discarded, since the gap is below 100 ms. -/
theorem collector_pageView_dedup_witness :
    ((collectorTrackPageView (collectorTrackPageView collectorInit envA).1
        envB).2 = none ↔ envB.now - envA.now < 100) :=
  collector_pageView_dedup collectorInit envA envB
    (trackEventFull envA "page_view" "page_view" (pageInfoProps envA)
      (some envA.now)) rfl rfl

/-- Claim C4: when the delivery attempt of a swapped-out batch reports
failure, `sendEvents` hands the whole batch to
`StorageManager.savePendingEvents`, which appends it — in the batch's
original order — after the events already persisted in the overflow, and
the attempt delivers nothing (the delivered log is unchanged). -/
theorem delivery_failure_rebuffers {E : Type} (cfg : Config) (s : TState E)
    (i : Nat) (b : List E) (h : s.inFlight[i]? = some b) :
    (step cfg s (Op.complete i false)).overflow = s.overflow ++ b ∧
    (step cfg s (Op.complete i false)).deliveredBatches = s.deliveredBatches := by
  simp [step, h, savePendingEvents]

/-- Witness for C4 with a concrete in-flight batch and pre-existing
overflow. -/
theorem delivery_failure_rebuffers_witness :
    (step cfgImm { initState Nat with inFlight := [[3, 4]], overflow := [7] }
        (Op.complete 0 false)).overflow = [7] ++ [3, 4] ∧
    (step cfgImm { initState Nat with inFlight := [[3, 4]], overflow := [7] }
        (Op.complete 0 false)).deliveredBatches = [] :=
  delivery_failure_rebuffers cfgImm
    { initState Nat with inFlight := [[3, 4]], overflow := [7] } 0 [3, 4] rfl

/-- Claim C5: in batch mode with `batchSize = 3`, enqueueing three events
synchronously triggers exactly one delivery call whose batch is exactly
those three events in enqueue order; the deferred timer armed by the
first enqueue (armed exactly once) is still pending, and when it fires it
flushes an empty queue — a no-op: no further delivery call and no
durable write. -/
theorem batch_trigger_exactly_once {E : Type} (e1 e2 e3 : E) :
    (run { reportMethod := ReportMethod.batch, batchSize := some 3,
           batchInterval := none } (initState E)
        [Op.enq e1, Op.enq e2, Op.enq e3, Op.timerFire]).deliveryCalls
      = [[e1, e2, e3]] ∧
    (run { reportMethod := ReportMethod.batch, batchSize := some 3,
           batchInterval := none } (initState E)
        [Op.enq e1, Op.enq e2, Op.enq e3, Op.timerFire]).eventQueue = [] ∧
    (run { reportMethod := ReportMethod.batch, batchSize := some 3,
           batchInterval := none } (initState E)
        [Op.enq e1, Op.enq e2, Op.enq e3, Op.timerFire]).overflow = [] ∧
    (run { reportMethod := ReportMethod.batch, batchSize := some 3,
           batchInterval := none } (initState E)
        [Op.enq e1, Op.enq e2, Op.enq e3, Op.timerFire]).armCount = 1 :=
  ⟨rfl, rfl, rfl, rfl⟩

/-- Claim C6: with `N > 0` events persisted in the durable overflow at
pipeline start, `restorePendingEvents` drains all of them into the
pending queue, clears the durable copy, and schedules a flush with a
fixed 1000 ms delay instead of flushing immediately (no delivery call is
made by the restore itself).  When the delayed flush later resolves,
exactly those `N` events are delivered (on success) or re-buffered (on
failure) — none duplicated, none dropped. -/
theorem restore_drains_and_delays {E : Type} (cfg : Config) (P : List E)
    (ok : Bool) (hP : P ≠ []) :
    (afterRestore cfg P).eventQueue = P ∧
    (afterRestore cfg P).overflow = [] ∧
    (afterRestore cfg P).restoreTimer = some 1000 ∧
    (afterRestore cfg P).deliveryCalls = [] ∧
    (afterRestoreFlush cfg P ok).deliveryCalls = [P] ∧
    (afterRestoreFlush cfg P ok).deliveredBatches = (if ok then [P] else []) ∧
    (afterRestoreFlush cfg P ok).overflow = (if ok then [] else P) := by
  have hP2 : P.isEmpty = false := by
    cases P with
    | nil => exact absurd rfl hP
    | cons a t => rfl
  cases ok <;>
    simp [afterRestore, afterRestoreFlush, run, step, sendEventsBegin,
      savePendingEvents, initState, hP2]

/-- Witness for C6 with two concrete buffered events and a failing
delayed flush. -/
theorem restore_drains_and_delays_witness :
    (afterRestore cfgImm [5, 7]).eventQueue = [5, 7] ∧
    (afterRestore cfgImm [5, 7]).overflow = [] ∧
    (afterRestore cfgImm [5, 7]).restoreTimer = some 1000 ∧
    (afterRestore cfgImm [5, 7]).deliveryCalls = [] ∧
    (afterRestoreFlush cfgImm [5, 7] false).deliveryCalls = [[5, 7]] ∧
    (afterRestoreFlush cfgImm [5, 7] false).deliveredBatches
      = (if false then [[5, 7]] else []) ∧
    (afterRestoreFlush cfgImm [5, 7] false).overflow
      = (if false then [] else [5, 7]) :=
  restore_drains_and_delays cfgImm [5, 7] false (by decide)

/-- Claim C7: on a teardown signal with a non-empty pending queue, the
handler issues one beacon-mode delivery attempt carrying a parallel copy
of the current queue contents (the queue is not swapped out) and —
whatever the attempt's outcome `ok` — also writes the same events into
the durable overflow through `StorageManager.savePendingEvents`. -/
theorem teardown_send_and_buffer {E : Type} (cfg : Config) (s : TState E)
    (ok : Bool) (h : s.eventQueue ≠ []) :
    (step cfg s (Op.teardown ok)).beaconCalls
      = s.beaconCalls ++ [(s.eventQueue, ok)] ∧
    (step cfg s (Op.teardown ok)).overflow = s.overflow ++ s.eventQueue := by
  have h2 : s.eventQueue.isEmpty = false := by
    cases hq : s.eventQueue with
    | nil => exact absurd hq h
    | cons a t => rfl
  simp [step, h2, savePendingEvents]

/-- Witness for C7 with two pending events and a failing beacon send. -/
theorem teardown_send_and_buffer_witness :
    (step cfgImm { initState Nat with eventQueue := [1, 2] }
        (Op.teardown false)).beaconCalls = [] ++ [([1, 2], false)] ∧
    (step cfgImm { initState Nat with eventQueue := [1, 2] }
        (Op.teardown false)).overflow = [] ++ [1, 2] :=
  teardown_send_and_buffer cfgImm
    { initState Nat with eventQueue := [1, 2] } false (by decide)

/-- Claim C8: `Reporter.report` never lets an exception cross its
boundary — for every batch, report method, fetch outcome and beacon
behaviour it resolves to `Except.ok` of a boolean — and that boolean is
`false` on every failure (thrown network error, timeout abort, non-2xx
HTTP status, rejected or throwing beacon) and `true` on a 2xx response
(or accepted beacon, or trivially for an empty batch). -/
theorem report_never_throws_flags_failure (events : List TrackEvent)
    (method : ReportMethod) (f : FetchOutcome) (b : BeaconBehavior) :
    reportE events method f b =
      Except.ok (events.isEmpty ||
        match method with
        | ReportMethod.beacon => beaconSuccess b
        | _ => fetchSuccess f) := by
  cases events with
  | nil => cases method <;> simp [reportE]
  | cons e t => cases method <;> simp [reportE, sendFetchE_eq, sendBeaconE_eq]

/-- Claim C9: in batch mode, for any sequence of enqueues that stays
below the batch-size threshold, the first enqueue arms exactly one
deferred-flush timer and every further enqueue before the timer fires
arms no additional timer: after the whole sequence the arm counter is
exactly 1 and a single timer is pending. -/
theorem single_timer_arm {E : Type} (cfg : Config) (e : E) (es : List E)
    (hm : cfg.reportMethod = ReportMethod.batch)
    (hlen : (e :: es).length < jsOrNat cfg.batchSize 10) :
    (run cfg (initState E) ((e :: es).map Op.enq)).armCount = 1 ∧
    ((run cfg (initState E) ((e :: es).map Op.enq)).batchTimer).isSome := by
  have hlen2 : 1 + es.length < jsOrNat cfg.batchSize 10 := by
    simpa [Nat.add_comm] using hlen
  have h1 : step cfg (initState E) (Op.enq e) =
      { initState E with
          eventQueue := [e],
          batchTimer := some (jsOrNat cfg.batchInterval 5000),
          armCount := 1 } := by
    have hth : ¬ (jsOrNat cfg.batchSize 10 ≤ 1) := by omega
    simp [step, addToQueue, hm, initState, scheduleBatchSend, hth]
  have h3 := run_enqs_below_threshold cfg hm es
    { initState E with
        eventQueue := [e],
        batchTimer := some (jsOrNat cfg.batchInterval 5000),
        armCount := 1 }
    rfl (by simp; omega)
  rw [List.map_cons, run_cons, h1, h3]
  simp

/-- Witness for C9: two enqueues under `batchSize = 10` arm exactly one
timer. -/
theorem single_timer_arm_witness :
    (run cfgBatch10 (initState Nat) (([0, 1] : List Nat).map Op.enq)).armCount = 1 ∧
    ((run cfgBatch10 (initState Nat) (([0, 1] : List Nat).map Op.enq)).batchTimer).isSome :=
  single_timer_arm cfgBatch10 0 [1] rfl (by decide)

/-- Claim C10: the teardown handler leaves the in-memory pending queue
unchanged — it sends a copy and mirrors the events to storage but
removes nothing, so the same events remain eligible for a later flush. -/
theorem teardown_preserves_queue {E : Type} (cfg : Config) (s : TState E)
    (ok : Bool) :
    (step cfg s (Op.teardown ok)).eventQueue = s.eventQueue := by
  by_cases h : s.eventQueue.isEmpty <;> simp [step, h]

end Argos
